import Mathlib

/-!
Shallow embedding of the datart chart-helper utilities
(`app/utils/chartHelper.ts`, excerpted in the repository sources) and of the
row-mutation logic of `ChartDraggableTargetContainer.tsx`, together with
theorems settling the frozen claims about them.

Modelling conventions for the JavaScript semantics used by this code:
- JS values are modelled by the inductive `JVal`; JS numbers by `JNum`
  (a rational together with the special values NaN, Infinity, -Infinity;
  IEEE-754 rounding and negative zero are not modelled — none of the code
  under verification depends on rounding).
- property access `o.k` / `o?.k` is modelled by `jGet`, which yields
  `undefined` when the property is missing; on `null`/`undefined` receivers
  plain JS access would throw, but every access in the verified code is
  either optional-chained or reached only with object receivers, so `jGet`
  uniformly yields `undefined` there.
- `===` on the primitive values this code compares is `jStrictEq`;
  two non-primitive operands compare by reference in JS, which this model
  conservatively renders as `false` (the code only ever compares primitives).
- `||` and `&&` are `jOr` / `jAnd` (value-returning, JS truthiness).
-/

/-- Model of a JavaScript number: a rational, or one of NaN / Infinity /
-Infinity. -/
inductive JNum where
  | q (v : ℚ)
  | nan
  | inf
  | ninf
deriving DecidableEq, Repr

/-- Model of a JavaScript value. Object fields are an association list in
property-insertion order; `arr` is a JS array. -/
inductive JVal where
  | undef
  | null
  | bool (b : Bool)
  | num (n : JNum)
  | str (s : String)
  | arr (elems : List JVal)
  | obj (fields : List (String × JVal))
deriving Repr

instance : Inhabited JVal := ⟨JVal.undef⟩

namespace JNum

/-- JS addition (NaN-propagating; Infinity + -Infinity is NaN). -/
def add : JNum → JNum → JNum
  | nan, _ => nan
  | _, nan => nan
  | inf, ninf => nan
  | ninf, inf => nan
  | inf, _ => inf
  | _, inf => inf
  | ninf, _ => ninf
  | _, ninf => ninf
  | q a, q b => q (a + b)

/-- JS negation. -/
def neg : JNum → JNum
  | nan => nan
  | inf => ninf
  | ninf => inf
  | q a => q (-a)

/-- JS subtraction. -/
def sub (a b : JNum) : JNum := add a (neg b)

/-- JS multiplication (0 * Infinity is NaN). -/
def mul : JNum → JNum → JNum
  | nan, _ => nan
  | _, nan => nan
  | inf, inf => inf
  | inf, ninf => ninf
  | ninf, inf => ninf
  | ninf, ninf => inf
  | inf, q b => if b = 0 then nan else if 0 < b then inf else ninf
  | q a, inf => if a = 0 then nan else if 0 < a then inf else ninf
  | ninf, q b => if b = 0 then nan else if 0 < b then ninf else inf
  | q a, ninf => if a = 0 then nan else if 0 < a then ninf else inf
  | q a, q b => q (a * b)

/-- JS division. `x / 0` is NaN for `x = 0` and a signed infinity otherwise
(the sign of zero is not modelled, so the positive-zero divisor is assumed). -/
def div : JNum → JNum → JNum
  | nan, _ => nan
  | _, nan => nan
  | inf, inf => nan
  | inf, ninf => nan
  | ninf, inf => nan
  | ninf, ninf => nan
  | inf, q b => if 0 ≤ b then inf else ninf
  | ninf, q b => if 0 ≤ b then ninf else inf
  | q _, inf => q 0
  | q _, ninf => q 0
  | q a, q b =>
    if b = 0 then (if a = 0 then nan else if 0 < a then inf else ninf)
    else q (a / b)

/-- JS `Math.max` on two numbers (NaN-propagating). -/
def max2 : JNum → JNum → JNum
  | nan, _ => nan
  | _, nan => nan
  | inf, _ => inf
  | _, inf => inf
  | ninf, b => b
  | a, ninf => a
  | q a, q b => q (max a b)

/-- JS `Math.min` on two numbers (NaN-propagating). -/
def min2 : JNum → JNum → JNum
  | nan, _ => nan
  | _, nan => nan
  | ninf, _ => ninf
  | _, ninf => ninf
  | inf, b => b
  | a, inf => a
  | q a, q b => q (min a b)

/-- JS number truthiness: `0` and `NaN` are falsy. -/
def truthyN : JNum → Bool
  | q v => decide (v ≠ 0)
  | nan => false
  | inf => true
  | ninf => true

end JNum

/-- JS `Math.max(...xs)` over a spread list: `-Infinity` for the empty list,
NaN-propagating otherwise. -/
def jsMaxList (xs : List JNum) : JNum := xs.foldl JNum.max2 JNum.ninf

/-- JS `Math.min(...xs)` over a spread list: `Infinity` for the empty list. -/
def jsMinList (xs : List JNum) : JNum := xs.foldl JNum.min2 JNum.inf

namespace JVal

/-- JS truthiness of a value. -/
def truthy : JVal → Bool
  | undef => false
  | null => false
  | bool b => b
  | num n => n.truthyN
  | str s => decide (s ≠ "")
  | arr _ => true
  | obj _ => true

end JVal

open JVal (truthy)

/-- JS strict equality `===` restricted to the primitive comparisons the
verified code performs. Arrays and objects compare by reference in JS; the
model renders any comparison involving them as `false` (the code never
compares two object values with `===`). NaN is not equal to itself. -/
def jStrictEq : JVal → JVal → Bool
  | .undef, .undef => true
  | .null, .null => true
  | .bool a, .bool b => a = b
  | .num (.q a), .num (.q b) => a = b
  | .num .inf, .num .inf => true
  | .num .ninf, .num .ninf => true
  | .str a, .str b => a = b
  | _, _ => false

/-- JS property access `o.k` (and `o?.k`): `undefined` when the property is
missing or the receiver is not an object. -/
def jGet (v : JVal) (k : String) : JVal :=
  match v with
  | .obj fs => match fs.lookup k with
    | some x => x
    | none => .undef
  | _ => (.undef : JVal)

/-- JS value-returning `||`. -/
def jOr (a b : JVal) : JVal := if truthy a then a else b

/-- JS value-returning `&&`. -/
def jAnd (a b : JVal) : JVal := if truthy a then b else a

/-- A JS array value coerced to its element list; nullish (and any non-array)
values give the empty list. The verified code only applies this where the
value is an array or nullish (the `x || []` idiom). -/
def jArrOrEmpty : JVal → List JVal
  | .arr xs => xs
  | _ => []

/-- Parsing of a string by JS `Number(...)` / unary `+`, simplified: optional
leading/trailing spaces, optional sign, decimal digits with an optional
fractional part. Exponents, hex literals and `"Infinity"` are not modelled;
such strings parse to NaN here. The empty (or all-space) string parses to 0,
as in JS. -/
def parseJSNum (s : String) : JNum :=
  let t := s.toList.dropWhile (· = ' ') |>.reverse.dropWhile (· = ' ') |>.reverse
  if t.isEmpty then .q 0
  else
    let (sign, ds) : ℚ × List Char :=
      match t with
      | '-' :: rest => (-1, rest)
      | '+' :: rest => (1, rest)
      | _ => (1, t)
    let intPart := ds.takeWhile (·.isDigit)
    let rest := ds.dropWhile (·.isDigit)
    let digitsVal : List Char → ℚ :=
      fun l => l.foldl (fun acc c => acc * 10 + (c.toNat - '0'.toNat : ℚ)) 0
    match rest with
    | [] =>
      if intPart.isEmpty then .nan
      else .q (sign * digitsVal intPart)
    | '.' :: frac =>
      if frac.all (·.isDigit) ∧ ¬(intPart.isEmpty ∧ frac.isEmpty) then
        .q (sign * (digitsVal intPart + digitsVal frac / (10 : ℚ) ^ frac.length))
      else .nan
    | _ => .nan

/-- JS ToNumber (unary `+`). Arrays and objects convert via their string
representation in JS; the verified code never coerces them, so the model
returns NaN there (except the empty array, which JS converts to 0). -/
def jToNum : JVal → JNum
  | .undef => .nan
  | .null => .q 0
  | .bool true => .q 1
  | .bool false => .q 0
  | .num n => n
  | .str s => parseJSNum s
  | .arr [] => .q 0
  | .arr _ => .nan
  | .obj _ => .nan

/-- Rendering of a JS number as a string, simplified: integers exactly, other
rationals as a decimal approximation marker. None of the verified claims
depends on the exact digits JS would print. -/
def jNumToStr : JNum → String
  | .nan => "NaN"
  | .inf => "Infinity"
  | .ninf => "-Infinity"
  | .q v =>
    if v.den = 1 then toString v.num
    else toString v.num ++ "/" ++ toString v.den

/-- JS ToString, used by template literals and `Array.prototype.join`.
Array/object rendering is simplified; the verified claims never depend on it. -/
def jToStr : JVal → String
  | .undef => "undefined"
  | .null => "null"
  | .bool true => "true"
  | .bool false => "false"
  | .num n => jNumToStr n
  | .str s => s
  | .arr _ => "[array]"
  | .obj _ => "[object Object]"

/-- JS global `isNaN(x)` (coercing). -/
def jsIsNaN (v : JVal) : Bool := jToNum v = JNum.nan

/-- JS `x?.[0]`: first element of an array, property "0" of an object,
`undefined` otherwise. -/
def jIdx0 : JVal → JVal
  | .arr (x :: _) => x
  | .arr [] => .undef
  | .obj fs => (jGet (.obj fs) "0")
  | _ => (.undef : JVal)

/-- JS single-character-separator `String.prototype.split`: `""` splits to
`[""]`, and every separator occurrence starts a new (possibly empty) chunk. -/
def jsSplitAux (sep : Char) : List Char → List String
  | [] => [""]
  | c :: cs =>
    match jsSplitAux sep cs with
    | [] => [""]
    | h :: t =>
      if c = sep then "" :: h :: t
      else String.mk (c :: h.toList) :: t

/-- JS `s.split(sep)` for a one-character separator string. -/
def jsSplit (sep : Char) (s : String) : List String := jsSplitAux sep s.toList

/-- Modelled from the repository's `utils/object` (declared outside the given
sources): `isEmpty(o)` holds exactly for `null` and `undefined`, per the
spec's "fall back to the raw value when config is absent". -/
def isEmptyJ (v : JVal) : Bool := jStrictEq v .null ∨ jStrictEq v (.undef : JVal)

/-
`getValue` (source lines 421-438).  The source is a `while` loop that
destructively consumes `keyPaths` via `Array.prototype.shift`; the embedding
passes that state explicitly: `getValueRun` returns the result value together
with the final contents of the `keyPaths` array.
-/

/-- Loop of `getValue`: iterates over the current node list, shifting the next
key off `keyPaths` each round. Returns `(result, remaining keyPaths)`.
An empty `keyPaths` array shifts `undefined`, so the loop looks for a node
whose `key` property is strictly equal to `undefined`. -/
def getValueRun : List JVal → List String → String → JVal × List String
  | iterators, keyPaths, targetKey =>
    if iterators.isEmpty then (.undef, keyPaths)
    else
      match keyPaths with
      | [] =>
        match iterators.find? (fun sc => jStrictEq (jGet sc "key") .undef) with
        | none => (.undef, [])
        | some group => (jGet group targetKey, [])
      | key :: rest =>
        match iterators.find? (fun sc => jStrictEq (jGet sc "key") (.str key)) with
        | none => (.undef, rest)
        | some group =>
          if rest.isEmpty then (jGet group targetKey, rest)
          else getValueRun (jArrOrEmpty (jGet group "rows")) rest targetKey

/-- Embedding of `getValue(configs, keyPaths, targetKey = "value")`: result value. -/
def getValue (configs : JVal) (keyPaths : List String)
    (targetKey : String := "value") : JVal :=
  (getValueRun (jArrOrEmpty configs) keyPaths targetKey).1

/-- The contents of the caller's `keyPaths` array after `getValue` returns
(the source mutates it via `shift`). -/
def getValueFinalPaths (configs : JVal) (keyPaths : List String)
    (targetKey : String := "value") : List String :=
  (getValueRun (jArrOrEmpty configs) keyPaths targetKey).2

/-- Embedding of `getSettingValue(configs, path, targetKey)` (source lines 331-337):
`getValue` on the path split at every dot. -/
def getSettingValue (configs : JVal) (path : String) (targetKey : String) : JVal :=
  getValue configs (jsSplit '.' path) targetKey

/-- Spec-side path walk, written from the words of claim C1: at each level
find the node whose `key` equals the next path element; at the last path
element return that node's `targetKey` field; descend into `rows` otherwise;
`undefined` when no node matches or the tree runs out before the path does.
(The claim does not address the empty path, so it is `undefined` here and the
claim theorem is stated for nonempty paths.) -/
def pathWalkSpec : List JVal → List String → String → JVal
  | _, [], _ => .undef
  | nodes, k :: rest, targetKey =>
    match nodes.find? (fun n => jStrictEq (jGet n "key") (.str k)) with
    | none => .undef
    | some node =>
      if rest.isEmpty then jGet node targetKey
      else pathWalkSpec (jArrOrEmpty (jGet node "rows")) rest targetKey

/-
The value-formatting pipeline (source lines 79-284).  The external constant
`NumericUnitDescriptions` (a `Map` from `globalConstants`, outside the given
sources) is threaded through these functions as an explicit lookup parameter
`lut`; the claims quantify over it.
-/

/-- The external numeric-unit table: unit key to `[divisor, suffix]`. -/
def NumericUnitMap : Type := JVal → Option (JNum × String)

/-- Modelled from `app/types/ChartConfig` (outside the given sources): the
`FieldFormatType` string-enum member for `DEFAULT`; only the distinctness of
the enum members matters to the verified code. -/
def FT_DEFAULT : JVal := .str "default"

/-- Embedding of `FieldFormatType.NUMERIC` (modelled external enum member). -/
def FT_NUMERIC : JVal := .str "numeric"

/-- Embedding of `FieldFormatType.CURRENCY` (modelled external enum member). -/
def FT_CURRENCY : JVal := .str "currency"

/-- Embedding of `FieldFormatType.PERCENTAGE` (modelled external enum member). -/
def FT_PERCENTAGE : JVal := .str "percentage"

/-- Embedding of `FieldFormatType.SCIENTIFIC` (modelled external enum member). -/
def FT_SCIENTIFIC : JVal := .str "scientificNotation"

/-- Embedding of `FieldFormatType.DATE` (modelled external enum member). -/
def FT_DATE : JVal := .str "date"

/-- Embedding of `NumberUnitKey.None` (modelled external constant from `globalConstants`). -/
def NONE_UNIT_KEY : JVal := .str "none"

/-- Is the value a JS string (JS string typeof check)? -/
def isJStr : JVal → Bool
  | .str _ => true
  | _ => false

/-- JS `<` between two numbers (false on NaN). -/
def JNum.ltN : JNum → JNum → Bool
  | .nan, _ => false
  | _, .nan => false
  | .inf, _ => false
  | .ninf, .inf => true
  | .ninf, .ninf => false
  | .ninf, .q _ => true
  | .q _, .inf => true
  | .q _, .ninf => false
  | .q a, .q b => decide (a < b)

/-- JS ToIntegerOrInfinity collapsed to a natural number (used for digit
counts handed to `toFixed` / `toExponential`; NaN and infinities give 0,
negative values are not produced by the verified code). -/
def jNumToNat : JNum → Nat
  | .q v => ⌊v⌋.toNat
  | _ => 0

/-- JS `Number.prototype.toFixed`, simplified: the number is rounded to
`d` fractional digits; the digit-exact decimal rendering is delegated to
`jNumToStr` (no verified claim depends on the printed digits). -/
def jsToFixed (n : JNum) (d : Nat) : String :=
  match n with
  | .nan => "NaN"
  | .inf => "Infinity"
  | .ninf => "-Infinity"
  | .q v => jNumToStr (.q ((round (v * (10 : ℚ) ^ d) : ℤ) / (10 : ℚ) ^ d))

/-- JS `Number.prototype.toExponential`, simplified to a tagged rendering of
the rounded value (no verified claim depends on the printed digits). -/
def jsToExponential (n : JNum) (d : Nat) : String :=
  jNumToStr n ++ "e" ++ toString d

/-- The external `moment(value).format(fmt)` call of `dateFormater`,
modelled as a tagged rendering (the date library is outside the sources and
no verified claim depends on the rendered date). -/
def momentFormat (v fmt : JVal) : String :=
  "moment(" ++ jToStr v ++ ")." ++ jToStr fmt

/-- Chunks of at most three characters, least significant first. -/
def chunk3 (l : List Char) : List (List Char) :=
  if l = [] then [] else l.take 3 :: chunk3 (l.drop 3)
termination_by l.length
decreasing_by
  rename_i h
  cases l with
  | nil => exact absurd rfl h
  | cons a t => simp [List.length_drop]; omega

/-- The thousand-separator regex replace of `thousandSeperatorFormater`:
commas are inserted every three digits (from the right) inside the maximal
trailing digit run of the string. -/
def groupThousands (s : String) : String :=
  let revd := s.toList.reverse
  let run := revd.takeWhile Char.isDigit
  let pre := revd.dropWhile Char.isDigit
  String.mk (pre.reverse ++ (List.intercalate [','] (chunk3 run)).reverse)

/-- Embedding of `decimalPlacesFormater` (source lines 151-168). -/
def decimalPlacesFormater (value config : JVal) : JVal :=
  let dp := jGet config "decimalPlaces"
  if isEmptyJ dp then value
  else if jsIsNaN value then value
  else if JNum.ltN (jToNum dp) (.q 0) || JNum.ltN (.q 100) (jToNum dp) then value
  else .str (jsToFixed (jToNum value) (jNumToNat (jToNum dp)))

/-- The `NumericUnitDescriptions.get(key)?.[0] || 1` divisor shared by
`unitFormater` and `currencyFormater`. -/
def realUnitOf (lut : NumericUnitMap) (key : JVal) : JVal :=
  jOr (match lut key with
       | some p => .num p.1
       | none => .undef)
      (.num (.q 1))

/-- Embedding of `unitFormater` (source lines 170-185). -/
def unitFormater (lut : NumericUnitMap) (value config : JVal) : JVal :=
  if isEmptyJ (jGet config "unitKey") then value
  else if jsIsNaN value then value
  else .num (JNum.div (jToNum value) (jToNum (realUnitOf lut (jGet config "unitKey"))))

/-- Embedding of `thousandSeperatorFormater` (source lines 204-216). -/
def thousandSeperatorFormater (value config : JVal) : JVal :=
  if jsIsNaN value || !truthy (jGet config "useThousandSeparator") then value
  else
    match jsSplit '.' (jToStr value) with
    | [] => .str ""
    | p0 :: rest => .str (String.intercalate "." (groupThousands p0 :: rest))

/-- An element of the array handed to `Array.prototype.join`: JS renders
`undefined` and `null` as the empty string there. -/
def jJoinElem : JVal → String
  | .undef => ""
  | .null => ""
  | v => jToStr v

/-- Embedding of `numericFormater` (source lines 187-202). The source fields `prefix` and
`suffix` of the numeric config are accessed here by their source names. -/
def numericFormater (lut : NumericUnitMap) (value config : JVal) : JVal :=
  if jsIsNaN value then value
  else
    .str (String.join
      [jJoinElem (jOr (jGet config "prefix") (.str "")),
       jJoinElem (thousandSeperatorFormater value config),
       jJoinElem (match lut (jOr (jGet config "unitKey") NONE_UNIT_KEY) with
                  | some p => .str p.2
                  | none => .undef),
       jJoinElem (jOr (jGet config "suffix") (.str ""))])

/-- The external `Intl.NumberFormat(zh-CN, ...).format(amount)` call of
`currencyFormater`, modelled as a tagged rendering (the verified claims only
concern the divisor of `amount`). -/
def intlCurrencyFormat (currency : String) (minFrac grouping : JVal) (amount : JNum) : String :=
  currency ++ " " ++ jNumToStr amount ++ "|" ++ jToStr minFrac ++ "|" ++ jToStr grouping

/-- Embedding of `currencyFormater` (source lines 218-236). -/
def currencyFormater (lut : NumericUnitMap) (value config : JVal) : JVal :=
  if jsIsNaN value then value
  else
    .str (intlCurrencyFormat
            (jToStr (jOr (jGet config "currency") (.str "CNY")))
            (jGet config "decimalPlaces")
            (jGet config "useThousandSeparator")
            (JNum.div (jToNum value) (jToNum (realUnitOf lut (jGet config "unitKey"))))
          ++ " "
          ++ jToStr (match lut (jOr (jGet config "unitKey") NONE_UNIT_KEY) with
                     | some p => .str p.2
                     | none => .undef))

/-- The shared `decimalPlaces` clamping of `percentageFormater` and
`scientificNotationFormater`: a fraction-digit count in `[0, 20]`, else 0. -/
def fractionDigitsOf (config : JVal) : Nat :=
  let dp := jGet config "decimalPlaces"
  if !isEmptyJ dp
      && !JNum.ltN (jToNum dp) (.q 0)
      && !JNum.ltN (.q 20) (jToNum dp) then jNumToNat (jToNum dp)
  else 0

/-- Embedding of `percentageFormater` (source lines 238-255). -/
def percentageFormater (value config : JVal) : JVal :=
  if jsIsNaN value then value
  else .str (jsToFixed (JNum.mul (jToNum value) (.q 100)) (fractionDigitsOf config) ++ "%")

/-- Embedding of `scientificNotationFormater` (source lines 257-273). -/
def scientificNotationFormater (value config : JVal) : JVal :=
  if jsIsNaN value then value
  else .str (jsToExponential (jToNum value) (fractionDigitsOf config))

/-- Embedding of `dateFormater` (source lines 275-284). -/
def dateFormater (value config : JVal) : JVal :=
  if jsIsNaN value || isEmptyJ (jGet config "format") then value
  else .str (momentFormat value (jGet config "format"))

/-- Embedding of `toFormattedValue` (source lines 79-149). The `pipe` combinator of the
repository's `utils/object` (outside the given sources) applies its functions
left to right, threading the config as the extra argument; the NUMERIC branch
is therefore `numericFormater ∘ decimalPlacesFormater ∘ unitFormater`. -/
def toFormattedValue (lut : NumericUnitMap) (value format : JVal) : JVal :=
  if jStrictEq value .null || jStrictEq value .undef then .str "-"
  else if !truthy format || jStrictEq (jGet format "type") FT_DEFAULT then value
  else if !truthy (jGet format "type") then value
  else
    let formatType := jGet format "type"
    if isJStr value && !jStrictEq formatType FT_DATE
        && (!truthy value || jsIsNaN value) then value
    else
      let config := jGet format (jToStr formatType)
      if !truthy config then value
      else
        if jStrictEq formatType FT_NUMERIC then
          numericFormater lut (decimalPlacesFormater (unitFormater lut value config) config) config
        else if jStrictEq formatType FT_CURRENCY then
          currencyFormater lut value config
        else if jStrictEq formatType FT_PERCENTAGE then
          percentageFormater value config
        else if jStrictEq formatType FT_SCIENTIFIC then
          scientificNotationFormater value config
        else if jStrictEq formatType FT_DATE then
          dateFormater value config
        else value


/-- Modelled from `app/types/ChartConfig` (outside the given sources):
`ChartDataSectionType.AGGREGATE` as a string tag (only equality matters). -/
def SECTION_AGGREGATE : JVal := .str "aggregate"

/-- Embedding of `ChartDataSectionType.GROUP` (modelled external enum member). -/
def SECTION_GROUP : JVal := .str "group"

/-- Embedding of `SortActionType.CUSTOMIZE` (modelled external enum member). -/
def SORT_CUSTOMIZE : JVal := .str "CUSTOMIZE"

/-- JS `Array.prototype.indexOf` under strict equality: index or -1. -/
def indexOfJ (xs : List JVal) (v : JVal) : Int :=
  match xs.findIdx? (fun x => jStrictEq x v) with
  | some i => (i : Int)
  | none => -1

/-- The first `let` of `getCustomSortableColumns` (source lines 441-447): the
rows of the AGGREGATE and GROUP sections, flattened. -/
def sortConfigsOf (dataConfigs : List JVal) : List JVal :=
  (dataConfigs.filter (fun c =>
      jStrictEq (jGet c "type") SECTION_AGGREGATE
      || jStrictEq (jGet c "type") SECTION_GROUP)).flatMap
      (fun config => jArrOrEmpty (jOr (jGet config "rows") (.arr [])))

/-- Embedding of `getCustomSortableColumns` (source lines 440-466). The in-place
`columns.sort(comparator)` (stable in JS) is modelled as a stable merge sort
by the comparator-induced order; the returned list is the mutated `columns`
array. -/
def getCustomSortableColumns (columns : List JVal) (dataConfigs : List JVal) : List JVal :=
  match sortConfigsOf dataConfigs with
  | [] => columns
  | sortConfig :: _ =>
    if !truthy (jGet sortConfig "colName") || !truthy (jGet sortConfig "sort") then columns
    else
      let sort := jGet sortConfig "sort"
      if !truthy sort || !jStrictEq (jGet sort "type") SORT_CUSTOMIZE then columns
      else
        let sortValues := jArrOrEmpty (jOr (jGet (jGet sortConfig "sort") "value") (.arr []))
        let colName := jToStr (jGet sortConfig "colName")
        columns.mergeSort (fun prev next =>
          decide (indexOfJ sortValues (jGet prev colName)
                    - indexOfJ sortValues (jGet next colName) ≤ 0))

/-- A JS array element write `xs[k] = v`: in range it replaces the element;
past the end it grows the array to length `k + 1`, the skipped positions
becoming holes that read back as `undefined` (modelled as `undefined`). -/
def jsArraySet (xs : List JVal) (k : Nat) (v : JVal) : List JVal :=
  if k < xs.length then xs.set k v
  else xs ++ List.replicate (k - xs.length) (.undef : JVal) ++ [v]

/-- One step of `rowBubbleMove`: the destructuring swap
`[rows[i], rows[i+1]] = [rows[i+1], rows[i]]`. Both reads happen first, on
the original array (out-of-range reads give `undefined`), then the two
writes; an out-of-range write grows the array as in JS. The source's
descending loop writes the higher index first, which yields the same final
array since the two indices are distinct and the growth holes are
`undefined` either way. -/
def swapAdj (xs : List JVal) (i : Nat) : List JVal :=
  jsArraySet (jsArraySet xs i (xs.getD (i + 1) (.undef : JVal))) (i + 1)
    (xs.getD i (.undef : JVal))

/-- Ascending loop of `rowBubbleMove` (`stepSize = 1`), with the iteration
count as fuel. -/
def bubbleRight (xs : List JVal) (i : Nat) : Nat → List JVal
  | 0 => xs
  | n + 1 => bubbleRight (swapAdj xs i) (i + 1) n

/-- Descending loop of `rowBubbleMove` (`stepSize = -1`): each step swaps
positions `i-1` and `i`. -/
def bubbleLeft (xs : List JVal) (i : Nat) : Nat → List JVal
  | 0 => xs
  | n + 1 => bubbleLeft (swapAdj xs (i - 1)) (i - 1) n

/-- Embedding of `rowBubbleMove` (source lines 1027-1036): bubbles the element at `idx`
to `targetIdx` by adjacent destructuring swaps, in place; out-of-range
indices grow the array with `undefined` holes, as in JS. -/
def rowBubbleMove (rows : List JVal) (idx targetIdx : Nat) : List JVal :=
  if targetIdx > idx then bubbleRight rows idx (targetIdx - idx)
  else if targetIdx < idx then bubbleLeft rows idx (idx - targetIdx)
  else rows

/-- The divisor used by the function `getScatterSymbolSizeFn` returns
(source line 1240): the source first clamps `min = Math.min(0, min)` and then
takes 100 when `max - min === 0` and `max - min` otherwise. -/
def scatterDistance (max0 min0 : JVal) : JNum :=
  let min1 := JNum.min2 (.q 0) (jToNum min0)
  let d := JNum.sub (jToNum max0) min1
  if d = .q 0 then .q 100 else d

/-- JS `val?.[i]` array indexing: `undefined` out of range or on non-arrays. -/
def jIdxAt (v : JVal) (i : Nat) : JVal :=
  match v with
  | .arr xs => xs.getD i .undef
  | _ => (.undef : JVal)

/-- Embedding of `getScatterSymbolSizeFn` (source lines 1231-1251). -/
def getScatterSymbolSizeFn (valueIndex : Nat) (max0 min0 cycleRatio : JVal) : JVal → JNum :=
  let min1 := JNum.min2 (.q 0) (jToNum min0)
  let scaleRatio := jOr cycleRatio (.num (.q 1))
  let defaultScatterPointPixelSize : JNum := .q 10
  let distance := scatterDistance max0 min0
  fun val =>
    JNum.max2 (.q 3)
      (JNum.mul
        (JNum.mul
          (JNum.mul
            (JNum.div (JNum.sub (jToNum (jIdxAt val valueIndex)) min1) distance)
            (jToNum scaleRatio))
          defaultScatterPointPixelSize)
        (.q 2))

/-- Embedding of `getIntervalShow` (source lines 1360-1361). -/
def getIntervalShow (interval : JVal) : Bool :=
  !jStrictEq interval (.str "auto") && !jStrictEq interval .null

/-- The `options[axisName]?.[0]?.axisLabel` lookup of
`hadAxisLabelOverflowConfig`, with `axisName` chosen from `horizon`. -/
def axisLabelOptsOf (options : JVal) (horizon : Bool) : JVal :=
  jGet (jIdx0 (jGet options (if !horizon then "xAxis" else "yAxis"))) "axisLabel"

/-- Embedding of `hadAxisLabelOverflowConfig` (source lines 1364-1377). The source returns
the raw value of `show && overflow && getIntervalShow(interval)`, which is
`true` only when all three conjuncts pass. -/
def hadAxisLabelOverflowConfig (options : JVal) (horizon : Bool := false) : JVal :=
  if !truthy options then .bool false
  else
    let axisLabelOpts := axisLabelOptsOf options horizon
    if !truthy axisLabelOpts then .bool false
    else
      jAnd (jGet axisLabelOpts "show")
        (jAnd (jGet axisLabelOpts "overflow")
          (.bool (getIntervalShow (jGet axisLabelOpts "interval"))))

/-- The parts of `ChartDataSectionField` (`app/types/ChartConfig`, outside
the given sources) the verified code reads, plus the `index` added by the
drag-item extension `DragItem`. Dynamically-typed fields stay `JVal`; the
source field `alias` is rendered `aliasV` (`alias` is a Lean command token). -/
structure ChartDataSectionFieldM where
  uid : JVal
  colName : String
  category : JVal
  type : JVal
  aggregate : JVal
  aliasV : JVal
  format : JVal
  index : JVal

/-- The part of `IChartDataSetRow` the verified code uses: `getCell`, whose
implementation lives in the external `ChartDataSet` model (outside the given
sources), carried as a function field. -/
structure ChartDataSetRowM where
  getCell : ChartDataSectionFieldM → JVal

/-- Embedding of `getValueByColumnKey` (source lines 995-1006). -/
def getValueByColumnKey (field : Option ChartDataSectionFieldM) : String :=
  match field with
  | none => ""
  | some f =>
    if !truthy f.aggregate then f.colName
    else jToStr f.aggregate ++ "(" ++ f.colName ++ ")"

/-- Embedding of `getColumnRenderName` (source lines 1017-1025). Its helper
`getColumnRenderOriginName` is defined in `internalChartHelper` (outside the
given sources) and is threaded as the explicit parameter `ron`. -/
def getColumnRenderName (ron : ChartDataSectionFieldM → String)
    (field : Option ChartDataSectionFieldM) : String :=
  match field with
  | none => "[unknown]"
  | some f =>
    if truthy (jGet f.aliasV "name") then jToStr (jGet f.aliasV "name")
    else ron f

/-- Embedding of `valueFormatter` (source lines 1221-1229): render name, colon-space,
formatted value. -/
def valueFormatter (lut : NumericUnitMap) (ron : ChartDataSectionFieldM → String)
    (config : Option ChartDataSectionFieldM) (value : JVal) : String :=
  getColumnRenderName ron config ++ ": "
    ++ jToStr (toFormattedValue lut value
        (match config with
         | some f => f.format
         | none => .undef))

/-- The object-literal spread `{show, position, ...font}`: the spread operand
overrides earlier keys in place and appends its new keys; a non-object
operand contributes nothing (the code spreads nullish or object fonts; the
JS enumeration of string spreads is not modelled). -/
def objSpread (base : List (String × JVal)) (v : JVal) : List (String × JVal) :=
  match v with
  | .obj fs =>
    (base.map (fun p => (p.1, match fs.lookup p.1 with
      | some w => w
      | none => p.2)))
    ++ fs.filter (fun q1 => (base.lookup q1.1).isNone)
  | _ => base

/-- Modelled from the spec: `meanValue` (repository `utils/object`, outside
the given sources) computes the average of the numbers — their sum divided by
their count (NaN on the empty list, as 0/0). -/
def meanValue (xs : List JNum) : JNum :=
  JNum.div (xs.foldl JNum.add (.q 0)) (.q xs.length)

/-- The `switch (valueType)` shared verbatim by `getMarkLineData`,
`getMarkLineData2`, `getMarkAreaData` and `getMarkAreaData2`, starting from
`let yAxis = 0`: the configured constant, or the average / max / min of the
metric values. -/
def markDerivedValue (valueType constantValue : JVal) (metricDatas : List JNum) : JVal :=
  if jStrictEq valueType (.str "constant") then constantValue
  else if jStrictEq valueType (.str "average") then .num (meanValue metricDatas)
  else if jStrictEq valueType (.str "max") then .num (jsMaxList metricDatas)
  else if jStrictEq valueType (.str "min") then .num (jsMinList metricDatas)
  else .num (.q 0)

/-- Embedding of `getMarkLineData` (source lines 544-597). -/
def getMarkLineData (mark : JVal) (dataColumns : List JVal)
    (valueTypeKey constantValueKey metricKey : String)
    (dataConfig : ChartDataSectionFieldM) (isHorizonDisplay : Bool) : JVal :=
  let name := jGet mark "label"
  let valueKey := if isHorizonDisplay then "xAxis" else "yAxis"
  let showL := getSettingValue (jGet mark "rows") "showLabel" "value"
  let enableMarkLine := getSettingValue (jGet mark "rows") "enableMarkLine" "value"
  let position := getSettingValue (jGet mark "rows") "position" "value"
  let font := getSettingValue (jGet mark "rows") "font" "value"
  let lineStyle := getSettingValue (jGet mark "rows") "lineStyle" "value"
  let valueType := getSettingValue (jGet mark "rows") valueTypeKey "value"
  let metricUid := getSettingValue (jGet mark "rows") metricKey "value"
  let metr := getValueByColumnKey (some dataConfig)
  let metricDatas :=
    if jStrictEq dataConfig.uid metricUid then
      dataColumns.map (fun d => jToNum (jGet d metr))
    else []
  let constantValue := getSettingValue (jGet mark "rows") constantValueKey "value"
  let yAxis := markDerivedValue valueType constantValue metricDatas
  if !truthy enableMarkLine then .null
  else
    .obj [(valueKey, yAxis), ("name", name),
          ("label", .obj (objSpread [("show", showL), ("position", position)] font)),
          ("lineStyle", lineStyle)]

/-- Embedding of `getMarkLineData2` (source lines 629-683): as `getMarkLineData`, reading
the metric values through `IChartDataSetRow.getCell`. -/
def getMarkLineData2 (mark : JVal) (dataSetRows : List ChartDataSetRowM)
    (valueTypeKey constantValueKey metricKey : String)
    (dataConfig : ChartDataSectionFieldM) (isHorizonDisplay : Bool) : JVal :=
  let name := jGet mark "label"
  let valueKey := if isHorizonDisplay then "xAxis" else "yAxis"
  let showL := getSettingValue (jGet mark "rows") "showLabel" "value"
  let enableMarkLine := getSettingValue (jGet mark "rows") "enableMarkLine" "value"
  let position := getSettingValue (jGet mark "rows") "position" "value"
  let font := getSettingValue (jGet mark "rows") "font" "value"
  let lineStyle := getSettingValue (jGet mark "rows") "lineStyle" "value"
  let valueType := getSettingValue (jGet mark "rows") valueTypeKey "value"
  let metricUid := getSettingValue (jGet mark "rows") metricKey "value"
  let metricDatas :=
    if jStrictEq dataConfig.uid metricUid then
      dataSetRows.map (fun d => jToNum (d.getCell dataConfig))
    else []
  let constantValue := getSettingValue (jGet mark "rows") constantValueKey "value"
  let yAxis := markDerivedValue valueType constantValue metricDatas
  if !truthy enableMarkLine then .null
  else
    .obj [(valueKey, yAxis), ("name", name),
          ("label", .obj (objSpread [("show", showL), ("position", position)] font)),
          ("lineStyle", lineStyle)]

/-- JS `Number.isFinite` (no coercion): finite numbers only. -/
def isFiniteNum : JVal → Bool
  | .num (.q _) => true
  | _ => false

/-- JS `Number.isNaN` (no coercion). -/
def isNaNStrict : JVal → Bool
  | .num .nan => true
  | _ => false

/-- The derived axis value of a `getMarkAreaData2` call (the `yAxis` local of
source lines 714-728). -/
def markArea2YAxis (mark : JVal) (dataSetRows : List ChartDataSetRowM)
    (valueTypeKey constantValueKey metricKey : String)
    (dataConfig : ChartDataSectionFieldM) : JVal :=
  markDerivedValue
    (getSettingValue (jGet mark "rows") valueTypeKey "value")
    (getSettingValue (jGet mark "rows") constantValueKey "value")
    (if jStrictEq dataConfig.uid (getSettingValue (jGet mark "rows") metricKey "value")
     then dataSetRows.map (fun d => jToNum (d.getCell dataConfig))
     else [])

/-- Embedding of `getMarkAreaData2` (source lines 685-750): `undefined` (no boundary
point) when `enableMarkArea` is falsy or the derived value is not a finite
number; otherwise the boundary-point object. -/
def getMarkAreaData2 (mark : JVal) (dataSetRows : List ChartDataSetRowM)
    (valueTypeKey constantValueKey metricKey : String)
    (dataConfig : ChartDataSectionFieldM) (isHorizonDisplay : Bool) : JVal :=
  let valueKey := if isHorizonDisplay then "xAxis" else "yAxis"
  let showL := getSettingValue (jGet mark "rows") "showLabel" "value"
  let enableMarkArea := getSettingValue (jGet mark "rows") "enableMarkArea" "value"
  let position := getSettingValue (jGet mark "rows") "position" "value"
  let font := getSettingValue (jGet mark "rows") "font" "value"
  let borderStyle := getSettingValue (jGet mark "rows") "borderStyle" "value"
  let opacity := getSettingValue (jGet mark "rows") "opacity" "value"
  let backgroundColor := getSettingValue (jGet mark "rows") "backgroundColor" "value"
  let name := jGet mark "value"
  let yAxis := markArea2YAxis mark dataSetRows valueTypeKey constantValueKey metricKey dataConfig
  if !truthy enableMarkArea || !isFiniteNum yAxis || isNaNStrict yAxis then .undef
  else
    .obj [(valueKey, yAxis), ("name", name),
          ("label", .obj (objSpread [("show", showL), ("position", position)] font)),
          ("itemStyle", .obj [("opacity", opacity), ("color", backgroundColor),
            ("borderColor", jGet borderStyle "color"),
            ("borderWidth", jGet borderStyle "width"),
            ("borderType", jGet borderStyle "type")])]

/-- JS `Array.prototype.concat` with one argument: appends the elements of an
array argument, and appends any non-array argument (such as the `undefined`
produced by a tab without rows) as a single element. -/
def jsConcat (acc : List JVal) (v : JVal) : List JVal :=
  match v with
  | .arr xs => acc ++ xs
  | x => acc ++ [x]

/-- The `cur?.rows?.filter(r => r.key === "markArea")` of the `refTabs`
reduce in `getMarkArea2`: `undefined` when the tab or its rows are nullish. -/
def markAreaRowsFilter (cur : JVal) : JVal :=
  match jGet cur "rows" with
  | .arr rs => .arr (rs.filter (fun r => jStrictEq (jGet r "key") (.str "markArea")))
  | _ => (.undef : JVal)

/-- Embedding of `getMarkArea2` (source lines 842-872): collects the `markArea` rows of
every tab, builds the `start`/`end` boundary points of each, keeps the truthy
points, and keeps only the areas with exactly two of them. Nullish `refTabs`
short-circuits the whole `?.` chain to an `undefined` data list. -/
def getMarkArea2 (refTabs : JVal) (dataSetRows : List ChartDataSetRowM)
    (dataConfig : ChartDataSectionFieldM) (isHorizonDisplay : Bool) : JVal :=
  match refTabs with
  | .arr tabs =>
    let refAreas := tabs.foldl (fun acc cur => jsConcat acc (markAreaRowsFilter cur)) []
    .obj [("data", .arr
      (((refAreas.map (fun mark =>
          (["start", "end"].map (fun pfx =>
            getMarkAreaData2 mark dataSetRows (pfx ++ "ValueType")
              (pfx ++ "ConstantValue") (pfx ++ "Metric") dataConfig
              isHorizonDisplay)).filter truthy)).filter
        (fun m => m.length == 2)).map .arr))]
  | _ => .obj [("data", .undef)]

/-- The tooltip callback parameter of `getSeriesTooltips4Rectangular2`
(source lines 1115-1122); `data` keeps its object shape. -/
structure TooltipParamM where
  componentType : JVal
  seriesName : JVal
  data : JVal

/-- Embedding of `getSeriesTooltips4Rectangular2` (source lines 1113-1148). The
`chartDataSet.getFieldOriginKey` method of the external `ChartDataSet` model
(outside the given sources) is threaded as the parameter `getFieldOriginKey`,
and `getColumnRenderOriginName` as `ron`. -/
def getSeriesTooltips4Rectangular2 (lut : NumericUnitMap)
    (ron : ChartDataSectionFieldM → String)
    (getFieldOriginKey : ChartDataSectionFieldM → String)
    (tooltipParam : TooltipParamM)
    (groupConfigs colorConfigs aggConfigs : List ChartDataSectionFieldM)
    (infoConfigs sizeConfigs : Option (List ChartDataSectionFieldM)) : String :=
  if !jStrictEq tooltipParam.componentType (.str "series") then ""
  else
    let aggConfigName := jOr (jGet tooltipParam.data "name") tooltipParam.seriesName
    let row := jOr (jGet tooltipParam.data "rowData") (.obj [])
    let tooltips :=
      (groupConfigs ++ colorConfigs
        ++ aggConfigs.filter (fun agg =>
            jStrictEq (.str (getColumnRenderName ron (some agg))) aggConfigName)
        ++ sizeConfigs.getD [] ++ infoConfigs.getD []).map
        (fun config =>
          valueFormatter lut ron (some config) (jGet row (getFieldOriginKey config)))
    String.intercalate "<br />" tooltips

/-- Embedding of `ChartDataSectionType.SIZE` (modelled external enum member). -/
def SECTION_SIZE : JVal := .str "size"

/-- Embedding of `ChartDataSectionType.INFO` (modelled external enum member). -/
def SECTION_INFO : JVal := .str "info"

/-- Embedding of `ChartDataSectionType.MIXED` (modelled external enum member). -/
def SECTION_MIXED : JVal := .str "mixed"

/-- Embedding of `ChartDataSectionFieldActionType.Aggregate` (modelled external enum
member). -/
def ACTION_AGGREGATE : JVal := .str "aggregate"

/-- Embedding of `ChartDataSectionFieldActionType.AggregateLimit` (modelled external enum
member). -/
def ACTION_AGGREGATE_LIMIT : JVal := .str "aggregateLimit"

/-- Embedding of `ChartDataViewFieldCategory.AggregateComputedField` (modelled external
enum member). -/
def CATEGORY_AGGREGATE_COMPUTED : JVal := .str "aggregateComputedField"

/-- The parts of the section config (`currentConfig`) the drop logic of
`ChartDraggableTargetContainer` reads. -/
structure CurrentConfigM where
  type : JVal
  disableAggregate : JVal
  actions : JVal
  rows : Option (List ChartDataSectionFieldM)

/-- Embedding of `getDefaultAggregate` (container source lines 189-224). The external
constant `AggregateFieldSubAggregateType` is passed as `subAggTable`. In the
`actions instanceof Array` branch the source discards the result of `find`,
so `aggType` keeps its initial empty string there. -/
def getDefaultAggregate (cfg : CurrentConfigM) (subAggTable : JVal)
    (item : ChartDataSectionFieldM) : JVal :=
  if jStrictEq cfg.type SECTION_AGGREGATE || jStrictEq cfg.type SECTION_SIZE
      || jStrictEq cfg.type SECTION_INFO || jStrictEq cfg.type SECTION_MIXED then
    if truthy cfg.disableAggregate then .undef
    else if jStrictEq item.category CATEGORY_AGGREGATE_COMPUTED then .undef
    else
      let aggType : JVal :=
        match cfg.actions with
        | .arr _ => .str ""
        | .obj _ =>
          match jGet cfg.actions (jToStr item.type) with
          | .arr ts =>
            match ts.find? (fun t =>
                jStrictEq t ACTION_AGGREGATE || jStrictEq t ACTION_AGGREGATE_LIMIT) with
            | some t => t
            | none => .undef
          | _ => .undef
        | _ => .str ""
      if truthy aggType then jIdx0 (jGet subAggTable (jToStr aggType)) else .undef
  else (.undef : JVal)

/-- Embedding of `getConfigColumn` (container source lines 226-234): rebuilds a column
from the dropped value (`uid: uid || val.uid`); fields the literal does not
set are absent, hence `undefined`. -/
def getConfigColumn (cfg : CurrentConfigM) (subAggTable : JVal)
    (val : ChartDataSectionFieldM) (uid : JVal) : ChartDataSectionFieldM where
  uid := jOr uid val.uid
  colName := val.colName
  category := val.category
  type := val.type
  aggregate := getDefaultAggregate cfg subAggTable val
  aliasV := .undef
  format := .undef
  index := (.undef : JVal)

/-- Truncation toward zero of a rational (JS ToIntegerOrInfinity). -/
def ratTrunc (x : ℚ) : ℤ := if 0 ≤ x then ⌊x⌋ else -⌊-x⌋

/-- The start index of a JS `splice(start, ...)` call on an array of length
`len`: coerced to an integer, negative values count from the end, and the
result is clamped into `[0, len]`. -/
def jsSpliceStart (len : Nat) (v : JVal) : Nat :=
  match jToNum v with
  | .q x => if x < 0 then ((len : ℤ) + ratTrunc x).toNat else min len (ratTrunc x).toNat
  | .nan => 0
  | .inf => len
  | .ninf => 0

/-- The two drag element types accepted by the drop target
(`CHART_DRAG_ELEMENT_TYPE`, a modelled external constant). -/
inductive DragItemType where
  | datasetColumn
  | dataConfigColumn

/-- The degenerate field read off a multi-drag array value in the
config-column branch (every property access on the array yields `undefined`;
the string-typed `colName` is rendered as the empty string). -/
def arrayAsField : ChartDataSectionFieldM where
  uid := .undef
  colName := ""
  category := .undef
  type := .undef
  aggregate := .undef
  aliasV := .undef
  format := .undef
  index := (.undef : JVal)

/-- The `drop` handler of `ChartDraggableTargetContainer` (container source
lines 96-135), reduced to its effect on the section's rows: the new rows
array together with the `needDelete` flag returned to the drag source.
`item` is a single field or an array of them
(`Array.isArray(item) ? item : [item]`); `uuid i` supplies the `uuidv4()`
result for the i-th appended dataset column. `updateBy`
(`app/utils/mutation`, outside the given sources) applies an immer-style
recipe to a copy of the rows; its effect here is the splice sequence itself. -/
def dropOnRows (cfg : CurrentConfigM) (subAggTable : JVal)
    (itemType : DragItemType)
    (item : ChartDataSectionFieldM ⊕ List ChartDataSectionFieldM)
    (uuid : Nat → String) : List ChartDataSectionFieldM × Bool :=
  let items := match item with
    | .inl f => [f]
    | .inr fs => fs
  match itemType with
  | .datasetColumn =>
    ((cfg.rows.getD []) ++ items.enum.map
        (fun ia => getConfigColumn cfg subAggTable ia.2 (.str (uuid ia.1))), true)
  | .dataConfigColumn =>
    let single := match item with
      | .inl f => f
      | .inr _ => arrayAsField
    let col := getConfigColumn cfg subAggTable single .undef
    let rows := cfg.rows.getD []
    match rows.findIdx? (fun r => jStrictEq r.uid single.uid) with
    | some originItemIndex =>
      let afterDelete := rows.eraseIdx originItemIndex
      (afterDelete.insertIdx (jsSpliceStart afterDelete.length single.index) col, false)
    | none =>
      (rows.insertIdx (jsSpliceStart rows.length single.index) col, true)

/-- Embedding of `handleOnDeleteItem` (container source lines 275-283): with a truthy uid,
keeps only the rows whose uid differs; a falsy uid changes nothing. -/
def handleOnDeleteItem (rows : List ChartDataSectionFieldM) (uid : JVal) :
    List ChartDataSectionFieldM :=
  if truthy uid then rows.filter (fun c => !jStrictEq c.uid uid)
  else rows

/-! ## Theorems settling the claims -/

lemma jGet_obj_head (k : String) (v : JVal) (rest : List (String × JVal)) :
    jGet (.obj ((k, v) :: rest)) k = v := by
  simp [jGet, List.lookup]

lemma getValueRun_fst_eq_pathWalkSpec (kps : List String) :
    ∀ (iters : List JVal) (tk : String), kps ≠ [] →
      (getValueRun iters kps tk).1 = pathWalkSpec iters kps tk := by
  induction kps with
  | nil => intro _ _ h; exact absurd rfl h
  | cons k rest ih =>
    intro iters tk _
    by_cases hit : iters.isEmpty
    · have : iters = [] := List.isEmpty_iff.mp hit
      subst this
      simp [getValueRun, pathWalkSpec, List.find?]
    · rw [getValueRun, pathWalkSpec]
      simp only [hit, if_false]
      cases hfind : iters.find? (fun sc => jStrictEq (jGet sc "key") (.str k)) with
      | none => simp
      | some group =>
        simp only
        by_cases hrest : rest.isEmpty
        · simp [hrest]
        · have hne : rest ≠ [] := fun h => by simp [h] at hrest
          simp only [hrest, if_false]
          exact ih _ tk hne

/-- C1: `getValue` walks the configuration tree along the key path, returning
the matched final node's `targetKey` field and `undefined` when a path element
matches no node or the tree runs out; `getSettingValue` is `getValue` on the
dot-split path. -/
theorem claim_C1 (configs : JVal) (keyPaths : List String) (targetKey : String) :
    (keyPaths ≠ [] →
      getValue configs keyPaths targetKey
        = pathWalkSpec (jArrOrEmpty configs) keyPaths targetKey)
    ∧ (∀ (path : String) (tk : String),
        getSettingValue configs path tk = getValue configs (jsSplit '.' path) tk) := by
  constructor
  · intro h
    exact getValueRun_fst_eq_pathWalkSpec keyPaths (jArrOrEmpty configs) targetKey h
  · intro _ _
    rfl


lemma jStrictEq_null_iff (v : JVal) : jStrictEq v .null = true ↔ v = .null := by
  cases v <;> simp [jStrictEq]

lemma jStrictEq_undef_iff (v : JVal) : jStrictEq v .undef = true ↔ v = .undef := by
  cases v <;> simp [jStrictEq]

/-- C9: a nullish value is rendered as the placeholder dash before any format
branch is considered, for every format config. -/
theorem claim_C9 (lut : NumericUnitMap) (format : JVal) :
    toFormattedValue lut .null format = .str "-"
    ∧ toFormattedValue lut .undef format = .str "-" := by
  constructor <;> simp [toFormattedValue, jStrictEq]

/-- Counterexample to C3 as stated: the claim's "for every input value"
includes `undefined`, but with no format config at all an `undefined` value is
rendered as the placeholder dash rather than returned unchanged. -/
theorem claim_C3_counterexample :
    toFormattedValue (fun _ => none) .undef .undef = .str "-"
    ∧ JVal.str "-" ≠ .undef := by
  exact ⟨rfl, by simp⟩

/-- C3 (amended): for every non-nullish input value, `toFormattedValue`
returns the value unchanged whenever the format config is absent (falsy), has
type DEFAULT, has no type, or lacks the per-type sub-config entry for its
declared type; and a string value that fails the emptiness/numeric check is
returned unchanged for every format type other than DATE. -/
theorem claim_C3 (lut : NumericUnitMap) (value format : JVal)
    (hn : value ≠ .null) (hu : value ≠ .undef) :
    (truthy format = false → toFormattedValue lut value format = value)
    ∧ (jStrictEq (jGet format "type") FT_DEFAULT = true →
        toFormattedValue lut value format = value)
    ∧ (truthy (jGet format "type") = false →
        toFormattedValue lut value format = value)
    ∧ (truthy (jGet format (jToStr (jGet format "type"))) = false →
        toFormattedValue lut value format = value)
    ∧ (∀ s : String, value = .str s →
        jStrictEq (jGet format "type") FT_DATE = false →
        (truthy value = false ∨ jsIsNaN value = true) →
        toFormattedValue lut value format = value) := by
  have h0 : (jStrictEq value .null || jStrictEq value .undef) = false := by
    cases hveq : jStrictEq value .null
    · cases hveq2 : jStrictEq value .undef
      · simp
      · exact absurd ((jStrictEq_undef_iff value).mp hveq2) hu
    · exact absurd ((jStrictEq_null_iff value).mp hveq) hn
  refine ⟨?_, ?_, ?_, ?_, ?_⟩
  · intro h
    simp [toFormattedValue, h0, h]
  · intro h
    simp [toFormattedValue, h0, h]
  · intro h
    by_cases h2 : (!truthy format || jStrictEq (jGet format "type") FT_DEFAULT) = true
    · simp [toFormattedValue, h0, h2]
    · simp [toFormattedValue, h0, h2, h]
  · intro h
    by_cases h2 : (!truthy format || jStrictEq (jGet format "type") FT_DEFAULT) = true
    · simp [toFormattedValue, h0, h2]
    · by_cases h3 : truthy (jGet format "type") = false
      · simp [toFormattedValue, h0, h2, h3]
      · by_cases h4 : (isJStr value && !jStrictEq (jGet format "type") FT_DATE
            && (!truthy value || jsIsNaN value)) = true
        · simp [toFormattedValue, h0, h2, h3, h4]
        · simp [toFormattedValue, h0, h2, h3, h4, h]
  · intro s hv hdate hguard
    subst hv
    have h4 : (isJStr (JVal.str s) && !jStrictEq (jGet format "type") FT_DATE
        && (!truthy (JVal.str s) || jsIsNaN (JVal.str s))) = true := by
      rcases hguard with hg | hg <;> simp [isJStr, hdate, hg]
    by_cases h2 : (!truthy format || jStrictEq (jGet format "type") FT_DEFAULT) = true
    · simp [toFormattedValue, h0, h2]
    · by_cases h3 : truthy (jGet format "type") = false
      · simp [toFormattedValue, h0, h2, h3]
      · simp [toFormattedValue, h0, h2, h3, h4]

/-- Witness for C3 (amended) at a concrete input: a NUMERIC-typed format with
no numeric sub-config leaves a string value unchanged. -/
theorem claim_C3_witness :
    toFormattedValue (fun _ => none) (.str "abc") (.obj [("type", .str "numeric")])
      = .str "abc" := by
  exact (claim_C3 (fun _ => none) (.str "abc") (.obj [("type", .str "numeric")])
    (by simp) (by simp)).2.2.2.1 (by rfl)

/-- Witness for C1 on the documentation's own example tree:
`getValue(styleConfigs, [label, color])` is the string red. -/
theorem claim_C1_witness :
    (["label", "color"] ≠ ([] : List String))
    ∧ getValue
        (.arr [.obj [("key", .str "label"),
                     ("rows", .arr [.obj [("key", .str "color"), ("value", .str "red")],
                                    .obj [("key", .str "font"), ("value", .str "sans-serif")]])]])
        ["label", "color"] "value"
      = pathWalkSpec
          (jArrOrEmpty (.arr [.obj [("key", .str "label"),
                     ("rows", .arr [.obj [("key", .str "color"), ("value", .str "red")],
                                    .obj [("key", .str "font"), ("value", .str "sans-serif")]])]]))
          ["label", "color"] "value"
    ∧ getValue
        (.arr [.obj [("key", .str "label"),
                     ("rows", .arr [.obj [("key", .str "color"), ("value", .str "red")],
                                    .obj [("key", .str "font"), ("value", .str "sans-serif")]])]])
        ["label", "color"] "value" = .str "red" := by
  refine ⟨by simp, ?_, ?_⟩
  · exact (claim_C1 _ ["label", "color"] "value").1 (by simp)
  · rfl

lemma jsArraySet_cons_succ (x : JVal) (t : List JVal) (k : Nat) (v : JVal) :
    jsArraySet (x :: t) (k + 1) v = x :: jsArraySet t k v := by
  rw [jsArraySet, jsArraySet, List.length_cons]
  by_cases h : k < t.length
  · rw [if_pos (Nat.succ_lt_succ h), if_pos h]
    rfl
  · rw [if_neg (fun hh => h (Nat.lt_of_succ_lt_succ hh)), if_neg h]
    simp [Nat.succ_sub_succ]

lemma swapAdj_cons_succ (x : JVal) (t : List JVal) (n : Nat) :
    swapAdj (x :: t) (n + 1) = x :: swapAdj t n := by
  simp only [swapAdj, List.getD_cons_succ, jsArraySet_cons_succ]

lemma swapAdj_zero_cons_cons (x y : JVal) (t : List JVal) :
    swapAdj (x :: y :: t) 0 = y :: x :: t := by
  rw [swapAdj]
  rw [show (x :: y :: t).getD (0 + 1) (.undef : JVal) = y from rfl,
      show (x :: y :: t).getD 0 (.undef : JVal) = x from rfl]
  rw [show jsArraySet (x :: y :: t) 0 y = y :: y :: t from
        by rw [jsArraySet, if_pos (by simp)]; rfl]
  rw [jsArraySet, if_pos (by simp)]
  rfl

lemma swapAdj_perm : ∀ (xs : List JVal) (i : Nat), i + 1 < xs.length →
    (swapAdj xs i).Perm xs := by
  intro xs
  induction xs with
  | nil => intro i h; simp at h
  | cons x t ih =>
    intro i h
    cases i with
    | zero =>
      cases t with
      | nil => simp at h
      | cons y t' =>
        rw [swapAdj_zero_cons_cons]
        exact List.Perm.swap x y t'
    | succ n =>
      rw [swapAdj_cons_succ]
      refine (ih n ?_).cons x
      simp only [List.length_cons] at h
      omega

lemma bubbleRight_perm : ∀ (n : Nat) (xs : List JVal) (i : Nat),
    i + n < xs.length → (bubbleRight xs i n).Perm xs := by
  intro n
  induction n with
  | zero => intro xs i _; exact List.Perm.refl xs
  | succ m ih =>
    intro xs i h
    have hswap : (swapAdj xs i).Perm xs := swapAdj_perm xs i (by omega)
    have hlen : (swapAdj xs i).length = xs.length := hswap.length_eq
    rw [bubbleRight]
    exact (ih (swapAdj xs i) (i + 1) (by omega)).trans hswap

lemma bubbleLeft_perm : ∀ (n : Nat) (xs : List JVal) (i : Nat),
    n ≤ i → i < xs.length → (bubbleLeft xs i n).Perm xs := by
  intro n
  induction n with
  | zero => intro xs i _ _; exact List.Perm.refl xs
  | succ m ih =>
    intro xs i h1 h2
    have hswap : (swapAdj xs (i - 1)).Perm xs := swapAdj_perm xs (i - 1) (by omega)
    have hlen : (swapAdj xs (i - 1)).length = xs.length := hswap.length_eq
    rw [bubbleLeft]
    exact (ih (swapAdj xs (i - 1)) (i - 1) (by omega) (by omega)).trans hswap

/-- Counterexample to C4 as stated: `rowBubbleMove` reorders its `rows`
argument in place (two in-bounds rows are swapped), so the helpers are not
all argument-preserving. -/
theorem claim_C4_counterexample :
    rowBubbleMove [JVal.str "a", JVal.str "b"] 0 1 = [JVal.str "b", JVal.str "a"]
    ∧ rowBubbleMove [JVal.str "a", JVal.str "b"] 0 1 ≠ [JVal.str "a", JVal.str "b"]
    ∧ getValueFinalPaths (.arr [.obj [("key", .str "a"), ("value", .str "v")]])
        ["a"] "value" = []
    ∧ ([] : List String) ≠ ["a"] := by
  refine ⟨rfl, ?_, rfl, by simp⟩
  intro hcontra
  rw [show rowBubbleMove [JVal.str "a", JVal.str "b"] 0 1
        = [JVal.str "b", JVal.str "a"] from rfl] at hcontra
  simp at hcontra

/-- C4 (amended): the helpers mutate their array arguments but preserve their
contents up to the documented operation: `getValue` consumes a prefix of
`keyPaths` (what remains is a suffix of the original); `getCustomSortableColumns`
returns `columns` unchanged when no customize sort applies (no sort config,
or a head config with falsy colName or sort or a non-CUSTOMIZE sort type) and
otherwise sorts the array in place, a permutation of the input; and
`rowBubbleMove` reorders `rows` in place, a permutation of the input when
both indices are in bounds (an out-of-range index makes the JS destructuring
write grow the array with undefined holes, as the embedding models). -/
theorem claim_C4 :
    (∀ (configs : JVal) (keyPaths : List String) (tk : String),
        (getValueFinalPaths configs keyPaths tk) <:+ keyPaths)
    ∧ (∀ (columns dataConfigs : List JVal),
        (getCustomSortableColumns columns dataConfigs).Perm columns)
    ∧ (∀ (columns dataConfigs : List JVal), sortConfigsOf dataConfigs = [] →
        getCustomSortableColumns columns dataConfigs = columns)
    ∧ (∀ (columns dataConfigs : List JVal) (sc : JVal) (t : List JVal),
        sortConfigsOf dataConfigs = sc :: t →
        (truthy (jGet sc "colName") = false ∨ truthy (jGet sc "sort") = false
         ∨ jStrictEq (jGet (jGet sc "sort") "type") SORT_CUSTOMIZE = false) →
        getCustomSortableColumns columns dataConfigs = columns)
    ∧ (∀ (rows : List JVal) (idx targetIdx : Nat),
        idx < rows.length → targetIdx < rows.length →
        (rowBubbleMove rows idx targetIdx).Perm rows) := by
  refine ⟨?_, ?_, ?_, ?_, ?_⟩
  · intro configs keyPaths tk
    suffices h : ∀ (kps : List String) (iters : List JVal) (tkey : String),
        (getValueRun iters kps tkey).2 <:+ kps by
      exact h keyPaths (jArrOrEmpty configs) tk
    intro kps
    induction kps with
    | nil =>
      intro iters tkey
      by_cases hit : iters.isEmpty
      · simp [getValueRun, hit, List.suffix_refl]
      · rw [getValueRun]
        simp only [hit, if_false]
        cases iters.find? (fun sc => jStrictEq (jGet sc "key") .undef) <;>
          simp [List.suffix_refl]
    | cons k rest ih =>
      intro iters tkey
      by_cases hit : iters.isEmpty
      · simp [getValueRun, hit, List.suffix_refl]
      · rw [getValueRun]
        simp only [hit, if_false]
        cases iters.find? (fun sc => jStrictEq (jGet sc "key") (.str k)) with
        | none => exact (List.suffix_refl rest).trans (List.suffix_cons k rest)
        | some group =>
          by_cases hrest : rest.isEmpty
          · simp only [hrest, if_true]
            exact (List.suffix_refl rest).trans (List.suffix_cons k rest)
          · simp only [hrest, if_false]
            exact (ih _ tkey).trans (List.suffix_cons k rest)
  · intro columns dataConfigs
    rw [getCustomSortableColumns]
    cases sortConfigsOf dataConfigs with
    | nil => exact List.Perm.refl columns
    | cons sortConfig t =>
      simp only
      split
      · exact List.Perm.refl columns
      · split
        · exact List.Perm.refl columns
        · exact List.mergeSort_perm columns _
  · intro columns dataConfigs h
    rw [getCustomSortableColumns, h]
  · intro columns dataConfigs sc t h hdisj
    rw [getCustomSortableColumns, h]
    rcases hdisj with hc | hs | ht
    · simp [hc]
    · simp [hs]
    · by_cases h1 : (!truthy (jGet sc "colName") || !truthy (jGet sc "sort")) = true
      · simp [h1]
      · simp [h1, ht]
  · intro rows idx targetIdx h1 h2
    rw [rowBubbleMove]
    split
    · refine bubbleRight_perm _ rows idx ?_
      omega
    · split
      · refine bubbleLeft_perm _ rows idx ?_ ?_ <;> omega
      · exact List.Perm.refl rows

/-- Witness for C4 (amended) at concrete inputs: no data configs (and a head
config without a colName) leave the columns unchanged, and an in-bounds
bubble move is a permutation. -/
theorem claim_C4_witness :
    sortConfigsOf [] = []
    ∧ getCustomSortableColumns [JVal.str "c"] [] = [JVal.str "c"]
    ∧ getCustomSortableColumns [JVal.str "c"]
        [.obj [("type", .str "aggregate"), ("rows", .arr [.obj []])]]
      = [JVal.str "c"]
    ∧ (0 : Nat) < 2 ∧ (1 : Nat) < 2
    ∧ (rowBubbleMove [JVal.str "a", JVal.str "b"] 0 1).Perm
        [JVal.str "a", JVal.str "b"] := by
  refine ⟨rfl, ?_, ?_, by decide, by decide, ?_⟩
  · exact claim_C4.2.2.1 [JVal.str "c"] [] rfl
  · exact claim_C4.2.2.2.1 [JVal.str "c"]
      [.obj [("type", .str "aggregate"), ("rows", .arr [.obj []])]]
      (.obj []) [] rfl (Or.inl rfl)
  · exact claim_C4.2.2.2.2 [JVal.str "a", JVal.str "b"] 0 1 (by decide) (by decide)

/-- Counterexample to C5 as stated: with `max = min = 5` the arguments give
`max - min = 0`, yet the divisor is `max - Math.min(0, min) = 5`, not 100
(the observed symbol size for `val = [7]` is `(7/5)*20 = 28`, where a divisor
of 100 would give `Math.max(3, 1.4) = 3`). -/
theorem claim_C5_counterexample :
    JNum.sub (jToNum (.num (.q 5))) (jToNum (.num (.q 5))) = .q 0
    ∧ scatterDistance (.num (.q 5)) (.num (.q 5)) = .q 5
    ∧ JNum.q 5 ≠ .q 100
    ∧ getScatterSymbolSizeFn 0 (.num (.q 5)) (.num (.q 5)) .undef (.arr [.num (.q 7)])
        = .q 28 := by
  refine ⟨?_, ?_, ?_, ?_⟩
  · simp [jToNum, JNum.sub, JNum.add, JNum.neg]
  · simp [scatterDistance, jToNum, JNum.sub, JNum.add, JNum.neg, JNum.min2]
  · simp
  · simp [getScatterSymbolSizeFn, scatterDistance, jToNum, jIdxAt, jOr, truthy,
      JNum.sub, JNum.add, JNum.neg, JNum.min2, JNum.max2, JNum.mul, JNum.div,
      JNum.truthyN]
    norm_num

/-- C5 (amended): no formatting or scaling helper divides by zero. The
symbol-size function divides by 100 when `max - Math.min(0, min)` equals 0
(the source clamps `min` before the check) and its divisor is never 0; and
the unit divisor of `unitFormater` / `currencyFormater` is 1 whenever the
numeric-unit lookup yields no unit or a falsy one, and is never 0. -/
theorem claim_C5 :
    (∀ max0 min0 : JVal,
        JNum.sub (jToNum max0) (JNum.min2 (.q 0) (jToNum min0)) = .q 0 →
          scatterDistance max0 min0 = .q 100)
    ∧ (∀ max0 min0 : JVal, scatterDistance max0 min0 ≠ .q 0)
    ∧ (∀ (lut : NumericUnitMap) (key : JVal),
        (∀ p, lut key = some p → p.1.truthyN = false) →
          realUnitOf lut key = .num (.q 1))
    ∧ (∀ (lut : NumericUnitMap) (key : JVal), jToNum (realUnitOf lut key) ≠ .q 0) := by
  refine ⟨?_, ?_, ?_, ?_⟩
  · intro max0 min0 h
    simp [scatterDistance, h]
  · intro max0 min0
    simp only [scatterDistance]
    split
    · simp
    · assumption
  · intro lut key h
    simp only [realUnitOf]
    cases hk : lut key with
    | none => rfl
    | some p =>
      have hfalse := h p hk
      simp [jOr, truthy, hfalse]
  · intro lut key
    simp only [realUnitOf]
    cases hk : lut key with
    | none => simp [jOr, truthy, JNum.truthyN, jToNum]
    | some p =>
      simp only [jOr]
      split
      · rename_i htr
        intro hEq
        simp only [jToNum] at hEq
        rw [hEq] at htr
        simp [truthy, JNum.truthyN] at htr
      · simp [jToNum, JNum.truthyN]

/-- Witness for C5 (amended) at concrete inputs: with `max = min = -3` the
clamped difference is 0 and the divisor is 100; an empty unit table gives the
unit divisor 1. -/
theorem claim_C5_witness :
    scatterDistance (.num (.q (-3))) (.num (.q (-3))) = .q 100
    ∧ realUnitOf (fun _ => none) .undef = .num (.q 1) := by
  constructor
  · exact claim_C5.1 (.num (.q (-3))) (.num (.q (-3)))
      (by simp [jToNum, JNum.sub, JNum.add, JNum.neg, JNum.min2])
  · exact claim_C5.2.2.1 (fun _ => none) .undef (fun p h => Option.noConfusion h)

lemma ne_bool_true_of_truthy_false {v : JVal} (h : ¬ truthy v = true) :
    (v = JVal.bool true) ↔ False := by
  constructor
  · intro he
    rw [he] at h
    simp [truthy] at h
  · exact False.elim

/-- C8: `hadAxisLabelOverflowConfig` returns `true` exactly when the first
x-axis (or y-axis when `horizon`) has an `axisLabel` with truthy `show` and
`overflow` and an `interval` that is strictly neither the string auto nor `null`;
it returns `false` when the options or that `axisLabel` are absent (falsy). -/
theorem claim_C8 (options : JVal) (horizon : Bool) :
    (hadAxisLabelOverflowConfig options horizon = .bool true ↔
      (truthy options = true
       ∧ truthy (axisLabelOptsOf options horizon) = true
       ∧ truthy (jGet (axisLabelOptsOf options horizon) "show") = true
       ∧ truthy (jGet (axisLabelOptsOf options horizon) "overflow") = true
       ∧ jStrictEq (jGet (axisLabelOptsOf options horizon) "interval") (.str "auto") = false
       ∧ jStrictEq (jGet (axisLabelOptsOf options horizon) "interval") .null = false))
    ∧ (truthy options = false →
        hadAxisLabelOverflowConfig options horizon = .bool false)
    ∧ (truthy (axisLabelOptsOf options horizon) = false →
        hadAxisLabelOverflowConfig options horizon = .bool false) := by
  refine ⟨?_, ?_, ?_⟩
  · by_cases hop : truthy options
    · by_cases hax : truthy (axisLabelOptsOf options horizon)
      · by_cases hs : truthy (jGet (axisLabelOptsOf options horizon) "show")
        · by_cases ho : truthy (jGet (axisLabelOptsOf options horizon) "overflow")
          · simp [hadAxisLabelOverflowConfig, hop, hax, jAnd, hs, ho, getIntervalShow,
              and_assoc]
          · simp [hadAxisLabelOverflowConfig, hop, hax, jAnd, hs, ho,
              ne_bool_true_of_truthy_false ho]
        · simp [hadAxisLabelOverflowConfig, hop, hax, jAnd, hs,
            ne_bool_true_of_truthy_false hs]
      · simp [hadAxisLabelOverflowConfig, hop, hax]
    · simp [hadAxisLabelOverflowConfig, hop]
  · intro h
    simp [hadAxisLabelOverflowConfig, h]
  · intro h
    by_cases hop : truthy options
    · simp [hadAxisLabelOverflowConfig, hop, h]
    · simp [hadAxisLabelOverflowConfig, hop]

/-- Witness for C8 at a concrete option object: label shown with overflow and
a numeric interval yields `true`; absent options yield `false`. -/
theorem claim_C8_witness :
    hadAxisLabelOverflowConfig
      (.obj [("xAxis", .arr [.obj [("axisLabel",
        .obj [("show", .bool true), ("overflow", .str "truncate"),
              ("interval", .num (.q 0))])]])]) false
      = .bool true
    ∧ hadAxisLabelOverflowConfig .undef false = .bool false
    ∧ hadAxisLabelOverflowConfig .undef true = .bool false := by
  refine ⟨?_, ?_, ?_⟩
  · exact (claim_C8 _ false).1.mpr (by
      refine ⟨rfl, ?_, ?_, ?_, ?_, ?_⟩ <;> rfl)
  · exact (claim_C8 .undef false).2.1 rfl
  · exact (claim_C8 .undef true).2.1 rfl

/-- C2: a mark line is produced only when `enableMarkLine` is truthy; the
produced entry carries the derived value under `xAxis` when the display is
horizontal and `yAxis` otherwise; and the derived value is the configured
constant for valueType `constant` and the average / maximum / minimum of the
metric column's numeric values (taken when the bound data config's uid
matches the mark's metric uid) for `average` / `max` / `min`. Both the
`dataColumns` and the `IChartDataSetRow` variants are covered. -/
theorem claim_C2 (mark : JVal) (dataColumns : List JVal)
    (dataSetRows : List ChartDataSetRowM)
    (vtk cvk mk : String) (cfg : ChartDataSectionFieldM) (horizon : Bool) :
    (truthy (getSettingValue (jGet mark "rows") "enableMarkLine" "value") = false →
      getMarkLineData mark dataColumns vtk cvk mk cfg horizon = .null
      ∧ getMarkLineData2 mark dataSetRows vtk cvk mk cfg horizon = .null)
    ∧ (truthy (getSettingValue (jGet mark "rows") "enableMarkLine" "value") = true →
      jGet (getMarkLineData mark dataColumns vtk cvk mk cfg horizon)
          (if horizon then "xAxis" else "yAxis")
        = markDerivedValue (getSettingValue (jGet mark "rows") vtk "value")
            (getSettingValue (jGet mark "rows") cvk "value")
            (if jStrictEq cfg.uid (getSettingValue (jGet mark "rows") mk "value")
             then dataColumns.map (fun d => jToNum (jGet d (getValueByColumnKey (some cfg))))
             else [])
      ∧ jGet (getMarkLineData2 mark dataSetRows vtk cvk mk cfg horizon)
          (if horizon then "xAxis" else "yAxis")
        = markDerivedValue (getSettingValue (jGet mark "rows") vtk "value")
            (getSettingValue (jGet mark "rows") cvk "value")
            (if jStrictEq cfg.uid (getSettingValue (jGet mark "rows") mk "value")
             then dataSetRows.map (fun d => jToNum (d.getCell cfg))
             else []))
    ∧ (∀ (c : JVal) (ds : List JNum),
        markDerivedValue (.str "constant") c ds = c
        ∧ markDerivedValue (.str "average") c ds = .num (meanValue ds)
        ∧ markDerivedValue (.str "max") c ds = .num (jsMaxList ds)
        ∧ markDerivedValue (.str "min") c ds = .num (jsMinList ds)) := by
  refine ⟨?_, ?_, ?_⟩
  · intro h
    constructor <;> simp [getMarkLineData, getMarkLineData2, h]
  · intro h
    constructor
    · simp only [getMarkLineData, h, Bool.not_true, Bool.false_eq_true, if_false]
      exact jGet_obj_head _ _ _
    · simp only [getMarkLineData2, h, Bool.not_true, Bool.false_eq_true, if_false]
      exact jGet_obj_head _ _ _
  · intro c ds
    refine ⟨?_, ?_, ?_, ?_⟩ <;> simp [markDerivedValue, jStrictEq]

/-- Witness for C2: an enabled mark line of valueType `max` over one matching
metric column with value 9 puts 9 under `yAxis` (vertical display). -/
theorem claim_C2_witness :
    truthy (getSettingValue
      (jGet (.obj [("label", .str "L"), ("rows", .arr
        [.obj [("key", .str "enableMarkLine"), ("value", .bool true)],
         .obj [("key", .str "valueType"), ("value", .str "max")],
         .obj [("key", .str "metric"), ("value", .str "u1")],
         .obj [("key", .str "constantValue"), ("value", .num (.q 7))]])]) "rows")
      "enableMarkLine" "value") = true
    ∧ jGet (getMarkLineData
        (.obj [("label", .str "L"), ("rows", .arr
          [.obj [("key", .str "enableMarkLine"), ("value", .bool true)],
           .obj [("key", .str "valueType"), ("value", .str "max")],
           .obj [("key", .str "metric"), ("value", .str "u1")],
           .obj [("key", .str "constantValue"), ("value", .num (.q 7))]])])
        [.obj [("amount", .num (.q 9))]]
        "valueType" "constantValue" "metric"
        ⟨.str "u1", "amount", .undef, .undef, .undef, .undef, .undef, .undef⟩ false)
        "yAxis"
      = .num (.q 9) := by
  constructor
  · rfl
  · exact ((claim_C2
      (.obj [("label", .str "L"), ("rows", .arr
        [.obj [("key", .str "enableMarkLine"), ("value", .bool true)],
         .obj [("key", .str "valueType"), ("value", .str "max")],
         .obj [("key", .str "metric"), ("value", .str "u1")],
         .obj [("key", .str "constantValue"), ("value", .num (.q 7))]])])
      [.obj [("amount", .num (.q 9))]] []
      "valueType" "constantValue" "metric"
      ⟨.str "u1", "amount", .undef, .undef, .undef, .undef, .undef, .undef⟩
      false).2.1 rfl).1.trans (by rfl)

/-- C10: `getMarkAreaData2` yields no boundary point when `enableMarkArea` is
falsy or the derived axis value is NaN or not a finite number; and every area
in `getMarkArea2`'s data list has exactly two boundary points. -/
theorem claim_C10 (mark : JVal) (dataSetRows : List ChartDataSetRowM)
    (vtk cvk mk : String) (cfg : ChartDataSectionFieldM) (horizon : Bool)
    (refTabs : JVal) :
    ((truthy (getSettingValue (jGet mark "rows") "enableMarkArea" "value") = false
      ∨ isFiniteNum (markArea2YAxis mark dataSetRows vtk cvk mk cfg) = false
      ∨ isNaNStrict (markArea2YAxis mark dataSetRows vtk cvk mk cfg) = true) →
      getMarkAreaData2 mark dataSetRows vtk cvk mk cfg horizon = .undef)
    ∧ (∀ xs : List JVal,
        jGet (getMarkArea2 refTabs dataSetRows cfg horizon) "data" = .arr xs →
        ∀ a ∈ xs, ∃ pts : List JVal, a = .arr pts ∧ pts.length = 2) := by
  constructor
  · intro h
    rcases h with h | h | h <;> simp [getMarkAreaData2, h]
  · intro xs hxs a ha
    cases refTabs with
    | arr tabs =>
      simp only [getMarkArea2, jGet, List.lookup, beq_self_eq_true] at hxs
      injection hxs with h2
      rw [← h2] at ha
      obtain ⟨pts, hmem, hpts⟩ := List.mem_map.mp ha
      refine ⟨pts, hpts.symm, ?_⟩
      have := (List.mem_filter.mp hmem).2
      simpa using this
    | undef => simp [getMarkArea2, jGet, List.lookup] at hxs
    | null => simp [getMarkArea2, jGet, List.lookup] at hxs
    | bool b => simp [getMarkArea2, jGet, List.lookup] at hxs
    | num n => simp [getMarkArea2, jGet, List.lookup] at hxs
    | str s => simp [getMarkArea2, jGet, List.lookup] at hxs
    | obj fs => simp [getMarkArea2, jGet, List.lookup] at hxs

/-- Witness for C10: a mark with no configuration rows has falsy
`enableMarkArea` and yields no boundary point; an empty tab list yields an
empty (hence vacuously two-point) area list. -/
theorem claim_C10_witness :
    getMarkAreaData2 (.obj []) [] "startValueType" "startConstantValue" "startMetric"
      ⟨.undef, "", .undef, .undef, .undef, .undef, .undef, .undef⟩ false = .undef
    ∧ ∀ a ∈ ([] : List JVal), ∃ pts : List JVal, a = .arr pts ∧ pts.length = 2 := by
  constructor
  · exact (claim_C10 (.obj []) [] "startValueType" "startConstantValue" "startMetric"
      ⟨.undef, "", .undef, .undef, .undef, .undef, .undef, .undef⟩ false (.arr [])).1
      (Or.inl rfl)
  · exact (claim_C10 (.obj []) [] "startValueType" "startConstantValue" "startMetric"
      ⟨.undef, "", .undef, .undef, .undef, .undef, .undef, .undef⟩ false (.arr [])).2
      [] rfl

/-- C6: for a `series` tooltip parameter, the result is the `<br />`-joined
lines — group fields, color fields, the aggregate fields whose render name
equals the hovered data/series name, size fields, then info fields — each
line being the render name, colon-space, and the row value for the field
formatted per its format config; for any other component type the result is
the empty string. -/
theorem claim_C6 (lut : NumericUnitMap) (ron gfok : ChartDataSectionFieldM → String)
    (p : TooltipParamM)
    (groupConfigs colorConfigs aggConfigs : List ChartDataSectionFieldM)
    (infoConfigs sizeConfigs : Option (List ChartDataSectionFieldM)) :
    (jStrictEq p.componentType (.str "series") = false →
      getSeriesTooltips4Rectangular2 lut ron gfok p groupConfigs colorConfigs
        aggConfigs infoConfigs sizeConfigs = "")
    ∧ (jStrictEq p.componentType (.str "series") = true →
      getSeriesTooltips4Rectangular2 lut ron gfok p groupConfigs colorConfigs
          aggConfigs infoConfigs sizeConfigs
        = String.intercalate "<br />"
            ((groupConfigs ++ colorConfigs
              ++ aggConfigs.filter (fun agg =>
                  jStrictEq (.str (getColumnRenderName ron (some agg)))
                    (jOr (jGet p.data "name") p.seriesName))
              ++ sizeConfigs.getD [] ++ infoConfigs.getD []).map
              (fun config =>
                getColumnRenderName ron (some config) ++ ": "
                  ++ jToStr (toFormattedValue lut
                      (jGet (jOr (jGet p.data "rowData") (.obj []))
                        (gfok config)) config.format)))) := by
  constructor
  · intro h
    simp [getSeriesTooltips4Rectangular2, h]
  · intro h
    simp [getSeriesTooltips4Rectangular2, h, valueFormatter]

/-- Witness for C6: one aggregate field whose render name matches the hovered
name, with no row value for it, renders as a single placeholder line. -/
theorem claim_C6_witness :
    getSeriesTooltips4Rectangular2 (fun _ => none) (fun f => f.colName)
      (fun f => f.colName)
      ⟨.str "series", .undef, .obj [("name", .str "amount"), ("rowData", .obj [])]⟩
      [] [] [⟨.str "u1", "amount", .undef, .undef, .undef, .undef, .undef, .undef⟩]
      none none
    = "amount: -" := by
  exact ((claim_C6 (fun _ => none) (fun f => f.colName) (fun f => f.colName)
      ⟨.str "series", .undef, .obj [("name", .str "amount"), ("rowData", .obj [])]⟩
      [] [] [⟨.str "u1", "amount", .undef, .undef, .undef, .undef, .undef, .undef⟩]
      none none).2 rfl).trans (by rfl)

/-- C7: the drop handler appends one rebuilt field per dropped dataset column
(carrying the freshly generated uid) to the end of the existing rows; a
dropped config column already present (matched by uid) is removed from its
origin index and reinserted at the drop target index, leaving the other rows
in their relative order; and deletion by a (truthy) uid removes exactly the
rows whose uid strictly equals it, preserving the order of the rest. -/
theorem claim_C7 :
    (∀ (cfg : CurrentConfigM) (subAgg : JVal)
        (items : List ChartDataSectionFieldM) (uuid : Nat → String),
      (dropOnRows cfg subAgg .datasetColumn (.inr items) uuid).1
        = (cfg.rows.getD []) ++ items.enum.map
            (fun ia => getConfigColumn cfg subAgg ia.2 (.str (uuid ia.1)))
      ∧ (dropOnRows cfg subAgg .datasetColumn (.inr items) uuid).1.take
          (cfg.rows.getD []).length = cfg.rows.getD []
      ∧ (dropOnRows cfg subAgg .datasetColumn (.inr items) uuid).1.length
          = (cfg.rows.getD []).length + items.length
      ∧ (∀ i, uuid i ≠ "" → ∀ f : ChartDataSectionFieldM,
          (getConfigColumn cfg subAgg f (.str (uuid i))).uid = .str (uuid i)))
    ∧ (∀ (cfg : CurrentConfigM) (subAgg : JVal) (f : ChartDataSectionFieldM)
        (uuid : Nat → String) (i : Nat),
        (cfg.rows.getD []).findIdx? (fun r => jStrictEq r.uid f.uid) = some i →
        (dropOnRows cfg subAgg .dataConfigColumn (.inl f) uuid).1
          = ((cfg.rows.getD []).eraseIdx i).insertIdx
              (jsSpliceStart ((cfg.rows.getD []).eraseIdx i).length f.index)
              (getConfigColumn cfg subAgg f .undef)
        ∧ (dropOnRows cfg subAgg .dataConfigColumn (.inl f) uuid).2 = false
        ∧ ((dropOnRows cfg subAgg .dataConfigColumn (.inl f) uuid).1).eraseIdx
              (jsSpliceStart ((cfg.rows.getD []).eraseIdx i).length f.index)
            = (cfg.rows.getD []).eraseIdx i)
    ∧ (∀ (rows : List ChartDataSectionFieldM) (uid : JVal), truthy uid = true →
        (∀ c ∈ handleOnDeleteItem rows uid, jStrictEq c.uid uid = false)
        ∧ (∀ c ∈ rows, jStrictEq c.uid uid = false →
            c ∈ handleOnDeleteItem rows uid)
        ∧ (handleOnDeleteItem rows uid).Sublist rows) := by
  refine ⟨?_, ?_, ?_⟩
  · intro cfg subAgg items uuid
    refine ⟨rfl, ?_, ?_, ?_⟩
    · show ((cfg.rows.getD []) ++ _).take (cfg.rows.getD []).length = cfg.rows.getD []
      exact List.take_left _ _
    · show ((cfg.rows.getD []) ++ _).length = _
      simp
    · intro i hne f
      simp [getConfigColumn, jOr, truthy, hne]
  · intro cfg subAgg f uuid i h
    refine ⟨?_, ?_, ?_⟩
    · simp [dropOnRows, h]
    · simp [dropOnRows, h]
    · simp only [dropOnRows, h]
      exact List.eraseIdx_insertIdx _ _
  · intro rows uid h
    refine ⟨?_, ?_, ?_⟩
    · intro c hc
      rw [handleOnDeleteItem, if_pos h] at hc
      have := (List.mem_filter.mp hc).2
      simpa using this
    · intro c hc hne
      rw [handleOnDeleteItem, if_pos h]
      exact List.mem_filter.mpr ⟨hc, by simpa using hne⟩
    · rw [handleOnDeleteItem, if_pos h]
      exact List.filter_sublist rows

/-- Witness for C7: moving the uid-`a` row of a two-row section to index 1
reports no deletion; deleting uid `a` leaves no row with that uid; a fresh
uid is attached to an appended dataset column. -/
theorem claim_C7_witness :
    (dropOnRows ⟨.undef, .undef, .undef,
        some [⟨.str "a", "x", .undef, .undef, .undef, .undef, .undef, .num (.q 1)⟩,
              ⟨.str "b", "y", .undef, .undef, .undef, .undef, .undef, .undef⟩]⟩
      .undef .dataConfigColumn
      (.inl ⟨.str "a", "x", .undef, .undef, .undef, .undef, .undef, .num (.q 1)⟩)
      (fun _ => "u")).2 = false
    ∧ (∀ c ∈ handleOnDeleteItem
        [⟨.str "a", "x", .undef, .undef, .undef, .undef, .undef, .undef⟩] (.str "a"),
        jStrictEq c.uid (.str "a") = false)
    ∧ (getConfigColumn ⟨.undef, .undef, .undef, none⟩ .undef
        ⟨.str "a", "x", .undef, .undef, .undef, .undef, .undef, .undef⟩
        (.str "u")).uid = .str "u" := by
  refine ⟨?_, ?_, ?_⟩
  · exact (claim_C7.2.1 ⟨.undef, .undef, .undef,
      some [⟨.str "a", "x", .undef, .undef, .undef, .undef, .undef, .num (.q 1)⟩,
            ⟨.str "b", "y", .undef, .undef, .undef, .undef, .undef, .undef⟩]⟩
      .undef ⟨.str "a", "x", .undef, .undef, .undef, .undef, .undef, .num (.q 1)⟩
      (fun _ => "u") 0 rfl).2.1
  · exact (claim_C7.2.2 _ (.str "a") rfl).1
  · exact (claim_C7.1 ⟨.undef, .undef, .undef, none⟩ .undef [] (fun _ => "u")).2.2.2
      0 (by simp)
      ⟨.str "a", "x", .undef, .undef, .undef, .undef, .undef, .undef⟩
